import Mathlib

/-!
Shallow embedding of the Invoice-Creator computation core.

Numbers are modelled as rationals (`ℚ`): every arithmetic operation the
source performs on monetary values (addition, subtraction, multiplication,
division by 100 and by the subtotal) is embedded by the corresponding exact
rational operation.

Two invoice shapes occur in the sources:
* `src/index.tsx` — a flat item list (`InvoiceItem` without sub-items);
* `src/unnamed/part_000` — two copies of a grouped shape where an
  `InvoiceItem` carries a `subItems : SubItem[]` list and, when that list is
  non-empty, is valued as the sum of its sub-items.

Both share the same adjustment/scaling pipeline, tax-mode resolver,
tax-rate migration and `numberToWords` routine.

The file is organised as definitions first — the embedding of the source
code, the specification-side definitions written from the specification's
wording, concrete example values, and the character-list analysis
vocabulary used by the `numberToWords` proofs — followed by all theorems.
-/

namespace InvoiceCreator

/-- Operation of an adjustment row: `'add' | 'subtract'` in the source. -/
inductive AdjOp where
  | add
  | subtract
deriving DecidableEq, Repr

/-- AdjustmentItem from `src/index.tsx` lines 20-25 (identical in
`src/unnamed/part_000` lines 35-40): a named pre- or post-tax delta. -/
structure AdjustmentItem where
  id : String
  name : String
  amount : ℚ
  operation : AdjOp
deriving DecidableEq, Repr

/-- InvoiceItem from `src/index.tsx` lines 6-18 (flat variant, no
sub-items).  `qty` is nullable, hence `Option ℚ`. -/
structure InvoiceItem where
  id : String
  name : String
  subItemName : Option String
  detailedDescription : Option String
  hsn : String
  qty : Option ℚ
  unit : String
  price : ℚ
  cgstRate : ℚ
  sgstRate : ℚ
  igstRate : ℚ
deriving DecidableEq, Repr

/-- SubItem from `src/unnamed/part_000` lines 6-17. -/
structure SubItem where
  id : String
  name : String
  description : Option String
  hsn : String
  qty : Option ℚ
  unit : String
  price : ℚ
  cgstRate : ℚ
  sgstRate : ℚ
  igstRate : ℚ
deriving DecidableEq, Repr

/-- InvoiceItem from `src/unnamed/part_000` lines 19-32: the grouped
variant, whose own hsn/qty/unit/price/rate fields are used only if
`subItems` is empty. -/
structure GroupItem where
  id : String
  name : String
  description : Option String
  subItems : List SubItem
  hsn : String
  qty : Option ℚ
  unit : String
  price : ℚ
  cgstRate : ℚ
  sgstRate : ℚ
  igstRate : ℚ
deriving DecidableEq, Repr

/-- Per-line computed figures produced by the valuation pass
(`itemAmount`, `cgstAmount`, `sgstAmount`, `igstAmount`, `totalAmount`). -/
structure ItemCalc where
  itemAmount : ℚ
  cgstAmount : ℚ
  sgstAmount : ℚ
  igstAmount : ℚ
  totalAmount : ℚ
deriving DecidableEq, Repr

/-- Valuation of one flat item, from the body of the `items.map` callback
in `src/index.tsx` lines 495-525: `itemQty = qty ?? 1`,
`itemAmount = itemQty * price`, tax amounts split by the tax mode. -/
def itemCalc (isIntraState : Bool) (item : InvoiceItem) : ItemCalc :=
  let itemQty := item.qty.getD 1
  let itemAmount := itemQty * item.price
  let cgstAmount := if isIntraState then itemAmount * (item.cgstRate / 100) else 0
  let sgstAmount := if isIntraState then itemAmount * (item.sgstRate / 100) else 0
  let igstAmount := if isIntraState then 0 else itemAmount * (item.igstRate / 100)
  { itemAmount := itemAmount
    cgstAmount := cgstAmount
    sgstAmount := sgstAmount
    igstAmount := igstAmount
    totalAmount := itemAmount + cgstAmount + sgstAmount + igstAmount }

/-- Valuation of one sub-item, from the `item.subItems.map` callback in
`src/unnamed/part_000` lines 577-601: identical formulas, with
`itemAmount = itemQty * subItem.price`. -/
def subItemCalc (isIntraState : Bool) (subItem : SubItem) : ItemCalc :=
  let itemQty := subItem.qty.getD 1
  let itemAmount := itemQty * subItem.price
  let cgstAmount := if isIntraState then itemAmount * (subItem.cgstRate / 100) else 0
  let sgstAmount := if isIntraState then itemAmount * (subItem.sgstRate / 100) else 0
  let igstAmount := if isIntraState then 0 else itemAmount * (subItem.igstRate / 100)
  { itemAmount := itemAmount
    cgstAmount := cgstAmount
    sgstAmount := sgstAmount
    igstAmount := igstAmount
    totalAmount := itemAmount + (cgstAmount + sgstAmount + igstAmount) }

/-- One `reduce` step of the adjustment totals in `src/index.tsx`
lines 527-530 and 542-545: `operation == 'subtract' ? acc - value : acc + value`. -/
def adjStep (acc : ℚ) (item : AdjustmentItem) : ℚ :=
  match item.operation with
  | .subtract => acc - item.amount
  | .add => acc + item.amount

/-- Signed fold of an adjustment list starting from 0, as the source's
`reduce(..., 0)`. -/
def adjustmentTotal (l : List AdjustmentItem) : ℚ :=
  l.foldl adjStep 0

/-- Invoice-wide figures returned by the `calculations` memo (numeric
values, before display formatting). -/
structure CalcResult where
  calculatedItems : List ItemCalc
  subtotal : ℚ
  totalCgst : ℚ
  totalSgst : ℚ
  totalIgst : ℚ
  preTaxAdjustmentTotal : ℚ
  taxableAmount : ℚ
  taxScalingFactor : ℚ
  finalTotalCgst : ℚ
  finalTotalSgst : ℚ
  finalTotalIgst : ℚ
  totalTax : ℚ
  grandTotal : ℚ
  postTaxAdjustmentTotal : ℚ
  amountDue : ℚ
deriving DecidableEq, Repr

/-- Adjustment-and-scaling pipeline shared verbatim by every
`calculations` memo (`src/index.tsx` lines 527-546, `src/unnamed/part_000`
lines 626-645 and 1743-1762), starting from the accumulated raw sums. -/
def pipeline (isIntraState : Bool) (calcs : List ItemCalc)
    (subtotal totalCgst totalSgst totalIgst : ℚ)
    (preTaxItems postTaxItems : List AdjustmentItem) : CalcResult :=
  let preTaxAdjustmentTotal := adjustmentTotal preTaxItems
  let taxableAmount := subtotal + preTaxAdjustmentTotal
  let taxScalingFactor := if subtotal ≠ 0 then taxableAmount / subtotal else 1
  let finalTotalCgst := totalCgst * taxScalingFactor
  let finalTotalSgst := totalSgst * taxScalingFactor
  let finalTotalIgst := totalIgst * taxScalingFactor
  let totalTax := if isIntraState then finalTotalCgst + finalTotalSgst else finalTotalIgst
  let grandTotal := taxableAmount + totalTax
  let postTaxAdjustmentTotal := adjustmentTotal postTaxItems
  let amountDue := grandTotal + postTaxAdjustmentTotal
  { calculatedItems := calcs
    subtotal := subtotal
    totalCgst := totalCgst
    totalSgst := totalSgst
    totalIgst := totalIgst
    preTaxAdjustmentTotal := preTaxAdjustmentTotal
    taxableAmount := taxableAmount
    taxScalingFactor := taxScalingFactor
    finalTotalCgst := finalTotalCgst
    finalTotalSgst := finalTotalSgst
    finalTotalIgst := finalTotalIgst
    totalTax := totalTax
    grandTotal := grandTotal
    postTaxAdjustmentTotal := postTaxAdjustmentTotal
    amountDue := amountDue }

/-- The `calculations` memo of the flat variant, `src/index.tsx`
lines 488-570: the mutable accumulation of `subtotal`, `totalCgst`,
`totalSgst`, `totalIgst` over `items.map` is embedded as sums over the
mapped per-item figures, followed by the shared pipeline. -/
def calculations (isIntraState : Bool) (items : List InvoiceItem)
    (preTaxItems postTaxItems : List AdjustmentItem) : CalcResult :=
  let calcs := items.map (itemCalc isIntraState)
  let subtotal := (calcs.map (·.itemAmount)).sum
  let totalCgst := (calcs.map (·.cgstAmount)).sum
  let totalSgst := (calcs.map (·.sgstAmount)).sum
  let totalIgst := (calcs.map (·.igstAmount)).sum
  pipeline isIntraState calcs subtotal totalCgst totalSgst totalIgst
    preTaxItems postTaxItems

/-- Per-group computed figures of the grouped variant
(`src/unnamed/part_000` lines 569-624): the group's displayed total and
the per-group CGST/SGST/IGST sums (`mainItemCgst` etc. stay 0 on the
single-item path), together with the group's contributions to the
invoice-wide accumulators `subtotal`/`totalCgst`/`totalSgst`/`totalIgst`. -/
structure GroupCalc where
  calculatedSubItems : List ItemCalc
  totalAmount : ℚ
  mainItemCgst : ℚ
  mainItemSgst : ℚ
  mainItemIgst : ℚ
  contribSubtotal : ℚ
  contribCgst : ℚ
  contribSgst : ℚ
  contribIgst : ℚ
deriving DecidableEq, Repr

/-- Valuation of one grouped line, from the `items.map` callback in
`src/unnamed/part_000` lines 569-624: when `subItems.length > 0` every
figure is accumulated from the sub-items and the item's own fields are
never read; otherwise the plain single-item path runs on the item's own
fields (`itemAmount = item.price * itemQty`) with `mainItemCgst`,
`mainItemSgst`, `mainItemIgst` left at their initial 0. -/
def groupItemCalc (isIntraState : Bool) (item : GroupItem) : GroupCalc :=
  match item.subItems with
  | _ :: _ =>
    let subs := item.subItems.map (subItemCalc isIntraState)
    { calculatedSubItems := subs
      totalAmount := (subs.map (·.totalAmount)).sum
      mainItemCgst := (subs.map (·.cgstAmount)).sum
      mainItemSgst := (subs.map (·.sgstAmount)).sum
      mainItemIgst := (subs.map (·.igstAmount)).sum
      contribSubtotal := (subs.map (·.itemAmount)).sum
      contribCgst := (subs.map (·.cgstAmount)).sum
      contribSgst := (subs.map (·.sgstAmount)).sum
      contribIgst := (subs.map (·.igstAmount)).sum }
  | [] =>
    let itemQty := item.qty.getD 1
    let itemAmount := item.price * itemQty
    let cgstAmount := if isIntraState then itemAmount * (item.cgstRate / 100) else 0
    let sgstAmount := if isIntraState then itemAmount * (item.sgstRate / 100) else 0
    let igstAmount := if isIntraState then 0 else itemAmount * (item.igstRate / 100)
    { calculatedSubItems := []
      totalAmount := itemAmount + (cgstAmount + sgstAmount + igstAmount)
      mainItemCgst := 0
      mainItemSgst := 0
      mainItemIgst := 0
      contribSubtotal := itemAmount
      contribCgst := cgstAmount
      contribSgst := sgstAmount
      contribIgst := igstAmount }

/-- The `calculations` memo of the grouped variant
(`src/unnamed/part_000` lines 563-690, repeated verbatim at
lines 1680-1807): group valuation followed by the shared pipeline. -/
def gCalculations (isIntraState : Bool) (items : List GroupItem)
    (preTaxItems postTaxItems : List AdjustmentItem) : CalcResult :=
  let gcs := items.map (groupItemCalc isIntraState)
  let subtotal := (gcs.map (·.contribSubtotal)).sum
  let totalCgst := (gcs.map (·.contribCgst)).sum
  let totalSgst := (gcs.map (·.contribSgst)).sum
  let totalIgst := (gcs.map (·.contribIgst)).sum
  pipeline isIntraState (gcs.flatMap (·.calculatedSubItems))
    subtotal totalCgst totalSgst totalIgst preTaxItems postTaxItems

/-- Seller's home-jurisdiction token compared against the place of supply
(`src/index.tsx` line 333). -/
def delhiToken : String := "Delhi (07)"

/-- Substring containment over character lists: semantics of JavaScript's
`String.prototype.includes`, which `isIntraState` applies to the
place-of-supply string. -/
def listContains (l tok : List Char) : Bool :=
  if tok.isPrefixOf l then true
  else
    match l with
    | [] => false
    | _ :: rest => listContains rest tok

/-- Tax-mode resolver from `src/index.tsx` line 333
(`src/unnamed/part_000` line 349):
`invoiceDetails.placeOfSupply.includes('Delhi (07)')`. -/
def isIntraState (placeOfSupply : String) : Bool :=
  listContains placeOfSupply.toList delhiToken.toList

/-- Tax-rate migration of one flat item, from the `useEffect [isIntraState]`
in `src/index.tsx` lines 386-400: on a switch to intra-state
`cgstRate = sgstRate = igstRate / 2`; on a switch to inter-state
`igstRate = cgstRate + sgstRate`. -/
def migrateInvoiceItem (toIntraState : Bool) (item : InvoiceItem) : InvoiceItem :=
  if toIntraState then
    let newRate := item.igstRate / 2
    { item with cgstRate := newRate, sgstRate := newRate }
  else
    let newRate := item.cgstRate + item.sgstRate
    { item with igstRate := newRate }

/-- Tax-rate migration of one sub-item, from the `item.subItems.map` in
`src/unnamed/part_000` lines 403-411: the same transform. -/
def migrateSubItem (toIntraState : Bool) (subItem : SubItem) : SubItem :=
  if toIntraState then
    let newRate := subItem.igstRate / 2
    { subItem with cgstRate := newRate, sgstRate := newRate }
  else
    let newRate := subItem.cgstRate + subItem.sgstRate
    { subItem with igstRate := newRate }

/-- Tax-rate migration of one grouped item, from the `useEffect
[isIntraState]` in `src/unnamed/part_000` lines 400-424: migrates every
sub-item and then the item's own rates. -/
def migrateGroupItem (toIntraState : Bool) (item : GroupItem) : GroupItem :=
  let updatedSubItems := item.subItems.map (migrateSubItem toIntraState)
  if toIntraState then
    let newRate := item.igstRate / 2
    { item with subItems := updatedSubItems, cgstRate := newRate, sgstRate := newRate }
  else
    let newRate := item.cgstRate + item.sgstRate
    { item with subItems := updatedSubItems, igstRate := newRate }

/-- Field update performed by `handlePreTaxItemChange` /
`handlePostTaxItemChange` when the edited field is `amount`
(`src/index.tsx` lines 476-484, `src/unnamed/part_000` lines 551-559):
`map(item => item.id === id ? { ...item, amount: value } : item)`. -/
def updateAdjustmentAmount (l : List AdjustmentItem) (id : String) (value : ℚ) :
    List AdjustmentItem :=
  l.map (fun item => if item.id = id then { item with amount := value } else item)

/-- Amount editor of the flat variant's pre-tax rows, `src/index.tsx`
line 1102: the change handler receives `Math.abs(val)`. -/
def preTaxAmountEditFlat (l : List AdjustmentItem) (id : String) (val : ℚ) :
    List AdjustmentItem :=
  updateAdjustmentAmount l id |val|

/-- Amount editor of the flat variant's post-tax rows, `src/index.tsx`
line 1161: the change handler receives `Math.abs(val)`. -/
def postTaxAmountEditFlat (l : List AdjustmentItem) (id : String) (val : ℚ) :
    List AdjustmentItem :=
  updateAdjustmentAmount l id |val|

/-- Amount editor of the grouped variant's post-tax rows,
`src/unnamed/part_000` lines 1005-1012: the change handler receives the
parsed value unchanged (no `Math.abs`). -/
def postTaxAmountEditGrouped (l : List AdjustmentItem) (id : String) (val : ℚ) :
    List AdjustmentItem :=
  updateAdjustmentAmount l id val

/-- Default pre-tax adjustment created by `addPreTaxItem`
(`src/index.tsx` line 475, `src/unnamed/part_000` line 550). -/
def addPreTaxItemDefault (id : String) : AdjustmentItem :=
  { id := id, name := "Discount", amount := 0, operation := .subtract }

/-- Default post-tax adjustment created by `addPostTaxItem`
(`src/index.tsx` line 481, `src/unnamed/part_000` line 555). -/
def addPostTaxItemDefault (id : String) : AdjustmentItem :=
  { id := id, name := "Advance Paid", amount := 0, operation := .subtract }

/-- Table `a` of `numberToWords` (`src/index.tsx` line 78): names of
0-19. -/
def onesWords : List String :=
  ["", "One", "Two", "Three", "Four", "Five", "Six", "Seven", "Eight", "Nine",
   "Ten", "Eleven", "Twelve", "Thirteen", "Fourteen", "Fifteen", "Sixteen",
   "Seventeen", "Eighteen", "Nineteen"]

/-- Table `b` of `numberToWords` (`src/index.tsx` line 79): names of the
multiples of ten. -/
def tensWords : List String :=
  ["", "", "Twenty", "Thirty", "Forty", "Fifty", "Sixty", "Seventy", "Eighty", "Ninety"]

/-- Table `s` of `numberToWords` (`src/index.tsx` line 80): the Indian
scale words. -/
def scaleWords : List String :=
  ["", "Thousand", "Lakh", "Crore"]

/-- Whitespace test backing JavaScript's `trim` and `\s`. -/
def isWsChar (c : Char) : Bool := c.isWhitespace

/-- JavaScript `String.prototype.trim`: drop whitespace from both ends. -/
def jsTrim (l : List Char) : List Char :=
  ((l.dropWhile isWsChar).reverse.dropWhile isWsChar).reverse

/-- Structural worker behind `collapseWs`: the flag records whether the
previous character belonged to a whitespace run already replaced by a
single space. -/
def collapseWsAux : Bool → List Char → List Char
  | _, [] => []
  | inRun, c :: rest =>
    if isWsChar c then
      if inRun then collapseWsAux true rest
      else ' ' :: collapseWsAux true rest
    else c :: collapseWsAux false rest

/-- JavaScript `replace` of every maximal whitespace run by a single
space, as in the final line of `numberToWords`. -/
def collapseWs (l : List Char) : List Char :=
  collapseWsAux false l

/-- String form of `jsTrim`. -/
def jsTrimStr (s : String) : String :=
  String.mk (jsTrim s.toList)

/-- String form of `jsTrim` followed by whitespace collapse:
`result.trim().replace(/\s+/g, ' ')` in `numberToWords`. -/
def jsTrimCollapseStr (s : String) : String :=
  String.mk (collapseWs (jsTrim s.toList))

/-- The sub-100 branches of the inner helper `toWords` of
`numberToWords` (`src/index.tsx` lines 83-84).  The helper's single
recursive call is `toWords(n % 100)`, whose argument is always below
100, so it lands in exactly these branches. -/
def toWordsBelow100 (n : Nat) : String :=
  if n < 20 then onesWords.getD n ""
  else
    jsTrimStr (tensWords.getD (n / 10) "" ++
      (if n % 10 ≠ 0 then " " ++ onesWords.getD (n % 10) "" else ""))

/-- Inner helper `toWords` of `numberToWords` (`src/index.tsx`
lines 82-87): hundreds/tens/ones expansion of a chunk, with the
below-100 recursive call inlined as `toWordsBelow100`; values of 1000
and above map to the empty string. -/
def toWords (n : Nat) : String :=
  if n < 20 then onesWords.getD n ""
  else if n < 100 then
    jsTrimStr (tensWords.getD (n / 10) "" ++
      (if n % 10 ≠ 0 then " " ++ onesWords.getD (n % 10) "" else ""))
  else if n < 1000 then
    jsTrimStr (onesWords.getD (n / 100) "" ++ " Hundred" ++
      (if n % 100 ≠ 0 then " " ++ toWordsBelow100 (n % 100) else ""))
  else ""

/-- The `while (tempNum > 0)` loop of `numberToWords` (`src/index.tsx`
lines 94-110).  The chunk at position 0 is `tempNum % 1000`, later chunks
are `tempNum % 100`; a non-zero chunk prepends
`toWords(chunk) + ' ' + s[i] + ' '` to the accumulator; after position 3
(`Crore`) the loop breaks, dropping any remaining value.  Division and
remainder are Euclidean, which on the positive values reached here agrees
with JavaScript's `Math.floor` division and `%`. -/
def chunkLoopFuel : Nat → Int → Nat → String → String
  | fuel, tempNum, i, result =>
    if tempNum > 0 then
      let chunk := if i = 0 then Int.emod tempNum 1000 else Int.emod tempNum 100
      let tempNum2 := if i = 0 then Int.ediv tempNum 1000 else Int.ediv tempNum 100
      let result2 :=
        if chunk > 0 then
          toWords chunk.toNat ++ " " ++ scaleWords.getD i "" ++ " " ++ result
        else result
      if i + 1 ≥ 4 then result2
      else
        match fuel with
        | 0 => result2
        | f + 1 => chunkLoopFuel f tempNum2 (i + 1) result2
    else result

/-- Entry point of the loop: a fuel of 4 covers every iteration the
source loop can perform (it breaks once `i` reaches `s.length = 4`), so
the fuel bound is never the reason the recursion stops. -/
def chunkLoop (tempNum : Int) (i : Nat) (result : String) : String :=
  chunkLoopFuel 4 tempNum i result

/-- The `numberToWords` routine (`src/index.tsx` lines 77-113,
`src/unnamed/part_000` lines 84-120) on an integer input (`Math.floor` of
an integer is the identity): 0 maps to `"Zero Only"`; otherwise the chunk
loop runs and the result is trimmed, whitespace-collapsed and suffixed
with `" Only"`. -/
def numberToWords (num : Int) : String :=
  if num = 0 then "Zero Only"
  else jsTrimCollapseStr (chunkLoop num 0 "") ++ " Only"

/-! ### Spec-side definitions

These definitions follow the specification's and claims' wording, to be
compared with the code-side definitions above. -/

/-- Signed value of an adjustment as the claims word it: the amount is
negated when the operation is subtract, added otherwise. -/
def signedAmount (item : AdjustmentItem) : ℚ :=
  match item.operation with
  | .subtract => -item.amount
  | .add => item.amount

/-- Single-space concatenation of rendered chunks. -/
def joinWords : List String → String
  | [] => ""
  | [w] => w
  | w :: ws => w ++ " " ++ joinWords ws

/-- Rendering of one non-zero chunk as the claim words it: the
hundreds/tens/ones expansion suffixed with its scale word (the empty
scale word adds no suffix). -/
def renderChunk (c : Nat) (scale : String) : String :=
  toWords c ++ (if scale = "" then "" else " " ++ scale)

/-- Specification-side words conversion, following the claim's wording:
the least-significant chunk is the value modulo 1000, every subsequent
chunk is the remaining value modulo 100; each non-zero chunk is rendered
and suffixed with its scale word; chunks are concatenated
most-significant-first with single spaces; `" Only"` is appended; chunks
beyond the Crore position are dropped. -/
def wordsIndianSpec (n : Nat) : String :=
  joinWords (([(n / 1000 / 100 / 100 % 100, "Crore"),
      (n / 1000 / 100 % 100, "Lakh"),
      (n / 1000 % 100, "Thousand"),
      (n % 1000, "")].filter (fun p => p.1 != 0)).map
        (fun p => renderChunk p.1 p.2)) ++ " Only"

/-- Projection of a grouped item onto the flat item shape, keeping its own
fields (used to state that an empty group is valued by the plain
single-item path). -/
def GroupItem.ownFields (g : GroupItem) : InvoiceItem :=
  { id := g.id, name := g.name, subItemName := none,
    detailedDescription := g.description, hsn := g.hsn, qty := g.qty,
    unit := g.unit, price := g.price, cgstRate := g.cgstRate,
    sgstRate := g.sgstRate, igstRate := g.igstRate }

/-- Example flat item used by witnesses: qty 2, price 500, 9+9/18 rates
(the spec's §8 scenario). -/
def itemEx : InvoiceItem :=
  { id := "1", name := "Widget", subItemName := none, detailedDescription := none,
    hsn := "8471", qty := some 2, unit := "pcs", price := 500,
    cgstRate := 9, sgstRate := 9, igstRate := 18 }

/-- Example sub-item used by witnesses: null qty, price 100. -/
def subItemEx : SubItem :=
  { id := "s1", name := "Part", description := none, hsn := "8471",
    qty := none, unit := "pcs", price := 100,
    cgstRate := 9, sgstRate := 9, igstRate := 18 }

/-- Example grouped item with one sub-item, used by witnesses. -/
def groupItemEx : GroupItem :=
  { id := "g1", name := "Bundle", description := none, subItems := [subItemEx],
    hsn := "", qty := none, unit := "", price := 0,
    cgstRate := 9, sgstRate := 9, igstRate := 18 }

/-! ### Helper lemmas -/

/-- Item with a positive price and a positive IGST rate, used to refute
the unconditional reading of the degenerate-scaling claim. -/
def negItemA : InvoiceItem :=
  { id := "a", name := "A", subItemName := none, detailedDescription := none,
    hsn := "", qty := some 1, unit := "", price := 5,
    cgstRate := 9, sgstRate := 9, igstRate := 18 }

/-- Item with a negative price and zero rates: its amount cancels
`negItemA`'s in the subtotal while contributing no tax. -/
def negItemB : InvoiceItem :=
  { id := "b", name := "B", subItemName := none, detailedDescription := none,
    hsn := "", qty := some 1, unit := "", price := -5,
    cgstRate := 0, sgstRate := 0, igstRate := 0 }

/-- Example post-tax adjustment row being edited. -/
def advEx : AdjustmentItem :=
  { id := "p1", name := "Advance Paid", amount := 0, operation := .subtract }

/-- Internal normalization of a character list: every whitespace char is
a single plain space surrounded by non-whitespace (never two adjacent
whitespace chars, never whitespace at the end). -/
def interOk : List Char → Bool
  | [] => true
  | [c] => !isWsChar c
  | c :: d :: rest => (!isWsChar c || (c == ' ' && !isWsChar d)) && interOk (d :: rest)

/-- A normalized word: non-empty, starts with non-whitespace, internally
normalized (hence also ends with non-whitespace). -/
def wordOk (w : List Char) : Bool :=
  match w with
  | [] => false
  | c :: _ => !isWsChar c && interOk w

/-- Raw interleaving of words and space runs, as the chunk loop builds
it: each pair contributes its word followed by a run of spaces. -/
def rawConcat : List (List Char × Nat) → List Char
  | [] => []
  | (w, k) :: rest => w ++ (List.replicate k ' ' ++ rawConcat rest)

/-- The same interleaving with the final space run removed. -/
def rawConcatTrim : List (List Char × Nat) → List Char
  | [] => []
  | [(w, _)] => w
  | (w, k) :: rest => w ++ (List.replicate k ' ' ++ rawConcatTrim rest)

/-- Single-space concatenation of character-list words. -/
def joinChars : List (List Char) → List Char
  | [] => []
  | [w] => w
  | w :: ws => w ++ ' ' :: joinChars ws

/-- One rendered chunk as the loop prepends it: the chunk's words, a
space, its scale word, and a trailing space. -/
def pieceStr (c i : Nat) : String :=
  toWords c ++ " " ++ scaleWords.getD i "" ++ " "

/-- The chunk loop's output for a positive integer, unrolled: the chunk
at position 0 is the value modulo 1000, later chunks take the remaining
value modulo 100, non-zero chunks are rendered most-significant-first,
and anything beyond the Crore position is dropped. -/
def rawChunks (n : Nat) : String :=
  (if n / 1000 / 100 / 100 % 100 ≠ 0 then pieceStr (n / 1000 / 100 / 100 % 100) 3 else "")
    ++ ((if n / 1000 / 100 % 100 ≠ 0 then pieceStr (n / 1000 / 100 % 100) 2 else "")
    ++ ((if n / 1000 % 100 ≠ 0 then pieceStr (n / 1000 % 100) 1 else "")
    ++ ((if n % 1000 ≠ 0 then pieceStr (n % 1000) 0 else "") ++ "")))

/-- Word/space-run pair list describing the chunk loop's raw output. -/
def chunkPairs (n : Nat) : List (List Char × Nat) :=
  (if n / 1000 / 100 / 100 % 100 ≠ 0 then
      [((toWords (n / 1000 / 100 / 100 % 100)).toList, 1), ("Crore".toList, 1)]
    else [])
  ++ ((if n / 1000 / 100 % 100 ≠ 0 then
      [((toWords (n / 1000 / 100 % 100)).toList, 1), ("Lakh".toList, 1)]
    else [])
  ++ ((if n / 1000 % 100 ≠ 0 then
      [((toWords (n / 1000 % 100)).toList, 1), ("Thousand".toList, 1)]
    else [])
  ++ (if n % 1000 ≠ 0 then [((toWords (n % 1000)).toList, 2)] else [])))

/-- The source's `reduce` over an adjustment list equals the starting
accumulator plus the signed sum of the list. -/
theorem foldl_adjStep (l : List AdjustmentItem) (acc : ℚ) :
    l.foldl adjStep acc = acc + (l.map signedAmount).sum := by
  induction l generalizing acc with
  | nil => simp
  | cons x xs ih =>
    rw [List.foldl_cons, ih]
    cases hop : x.operation <;> simp [adjStep, signedAmount, hop] <;> ring

/-- Adjustment totals are signed sums. -/
theorem adjustmentTotal_eq_sum (l : List AdjustmentItem) :
    adjustmentTotal l = (l.map signedAmount).sum := by
  rw [adjustmentTotal, foldl_adjStep, zero_add]

/-- C1: for every invoice state in either variant, taxableAmount is the
subtotal plus the signed pre-tax sum, grandTotal is taxableAmount plus
totalTax, amountDue is grandTotal plus the signed post-tax sum, and
totalTax selects scaled CGST+SGST under intra-state mode and scaled IGST
under inter-state mode. -/
theorem calculations_totals_identities (isIntra : Bool)
    (items : List InvoiceItem) (gItems : List GroupItem)
    (preTaxItems postTaxItems : List AdjustmentItem) :
    ((calculations isIntra items preTaxItems postTaxItems).taxableAmount
        = (calculations isIntra items preTaxItems postTaxItems).subtotal
          + (preTaxItems.map signedAmount).sum
      ∧ (calculations isIntra items preTaxItems postTaxItems).grandTotal
        = (calculations isIntra items preTaxItems postTaxItems).taxableAmount
          + (calculations isIntra items preTaxItems postTaxItems).totalTax
      ∧ (calculations isIntra items preTaxItems postTaxItems).amountDue
        = (calculations isIntra items preTaxItems postTaxItems).grandTotal
          + (postTaxItems.map signedAmount).sum
      ∧ (calculations isIntra items preTaxItems postTaxItems).totalTax
        = (if isIntra then
            (calculations isIntra items preTaxItems postTaxItems).finalTotalCgst
              + (calculations isIntra items preTaxItems postTaxItems).finalTotalSgst
          else (calculations isIntra items preTaxItems postTaxItems).finalTotalIgst))
    ∧ ((gCalculations isIntra gItems preTaxItems postTaxItems).taxableAmount
        = (gCalculations isIntra gItems preTaxItems postTaxItems).subtotal
          + (preTaxItems.map signedAmount).sum
      ∧ (gCalculations isIntra gItems preTaxItems postTaxItems).grandTotal
        = (gCalculations isIntra gItems preTaxItems postTaxItems).taxableAmount
          + (gCalculations isIntra gItems preTaxItems postTaxItems).totalTax
      ∧ (gCalculations isIntra gItems preTaxItems postTaxItems).amountDue
        = (gCalculations isIntra gItems preTaxItems postTaxItems).grandTotal
          + (postTaxItems.map signedAmount).sum
      ∧ (gCalculations isIntra gItems preTaxItems postTaxItems).totalTax
        = (if isIntra then
            (gCalculations isIntra gItems preTaxItems postTaxItems).finalTotalCgst
              + (gCalculations isIntra gItems preTaxItems postTaxItems).finalTotalSgst
          else (gCalculations isIntra gItems preTaxItems postTaxItems).finalTotalIgst)) := by
  constructor <;>
    exact ⟨by simp [calculations, gCalculations, pipeline, adjustmentTotal_eq_sum],
      rfl, by simp [calculations, gCalculations, pipeline, adjustmentTotal_eq_sum], rfl⟩

/-- C2: for every line item and sub-item, itemAmount is effectiveQty
times price with effectiveQty 1 when qty is null; under intra-state mode
the CGST/SGST amounts are itemAmount times rate over 100 and IGST is 0;
under inter-state mode IGST is itemAmount times rate over 100 and
CGST/SGST are 0; the line total is the sum of the four figures. -/
theorem lineItemValuation (isIntra : Bool) (item : InvoiceItem) (subItem : SubItem) :
    ((itemCalc isIntra item).itemAmount
        = (match item.qty with | none => (1 : ℚ) | some q => q) * item.price
      ∧ (isIntra = true →
          (itemCalc isIntra item).cgstAmount
              = (itemCalc isIntra item).itemAmount * item.cgstRate / 100
            ∧ (itemCalc isIntra item).sgstAmount
              = (itemCalc isIntra item).itemAmount * item.sgstRate / 100
            ∧ (itemCalc isIntra item).igstAmount = 0)
      ∧ (isIntra = false →
          (itemCalc isIntra item).igstAmount
              = (itemCalc isIntra item).itemAmount * item.igstRate / 100
            ∧ (itemCalc isIntra item).cgstAmount = 0
            ∧ (itemCalc isIntra item).sgstAmount = 0)
      ∧ (itemCalc isIntra item).totalAmount
        = (itemCalc isIntra item).itemAmount + (itemCalc isIntra item).cgstAmount
          + (itemCalc isIntra item).sgstAmount + (itemCalc isIntra item).igstAmount)
    ∧ ((subItemCalc isIntra subItem).itemAmount
        = (match subItem.qty with | none => (1 : ℚ) | some q => q) * subItem.price
      ∧ (isIntra = true →
          (subItemCalc isIntra subItem).cgstAmount
              = (subItemCalc isIntra subItem).itemAmount * subItem.cgstRate / 100
            ∧ (subItemCalc isIntra subItem).sgstAmount
              = (subItemCalc isIntra subItem).itemAmount * subItem.sgstRate / 100
            ∧ (subItemCalc isIntra subItem).igstAmount = 0)
      ∧ (isIntra = false →
          (subItemCalc isIntra subItem).igstAmount
              = (subItemCalc isIntra subItem).itemAmount * subItem.igstRate / 100
            ∧ (subItemCalc isIntra subItem).cgstAmount = 0
            ∧ (subItemCalc isIntra subItem).sgstAmount = 0)
      ∧ (subItemCalc isIntra subItem).totalAmount
        = (subItemCalc isIntra subItem).itemAmount + (subItemCalc isIntra subItem).cgstAmount
          + (subItemCalc isIntra subItem).sgstAmount + (subItemCalc isIntra subItem).igstAmount) := by
  cases isIntra <;>
    refine ⟨⟨?_, ?_, ?_, ?_⟩, ⟨?_, ?_, ?_, ?_⟩⟩ <;>
      simp [itemCalc, subItemCalc, mul_div_assoc] <;>
        first
          | ring1
          | (cases item.qty <;> simp)
          | (cases subItem.qty <;> simp)

/-- Witness for C2 at concrete inputs: intra-state CGST formula for the
example item and inter-state IGST formula for the example sub-item. -/
theorem lineItemValuation_witness :
    (itemCalc true itemEx).cgstAmount
        = (itemCalc true itemEx).itemAmount * itemEx.cgstRate / 100
      ∧ (subItemCalc false subItemEx).igstAmount
        = (subItemCalc false subItemEx).itemAmount * subItemEx.igstRate / 100 :=
  ⟨((lineItemValuation true itemEx subItemEx).1.2.1 rfl).1,
   ((lineItemValuation false itemEx subItemEx).2.2.2.1 rfl).1⟩

/-- C3: converting to intra-state (half the IGST rate on both CGST and
SGST) and then to inter-state (IGST as the CGST+SGST sum) reproduces the
original IGST rate exactly, for items, sub-items and grouped items; the
reverse round trip reproduces CGST/SGST exactly whenever they start
equal. -/
theorem taxRateMigration_roundTrip (item : InvoiceItem) (subItem : SubItem)
    (g : GroupItem) :
    ((migrateInvoiceItem false (migrateInvoiceItem true item)).igstRate = item.igstRate
      ∧ (item.cgstRate = item.sgstRate →
          (migrateInvoiceItem true (migrateInvoiceItem false item)).cgstRate = item.cgstRate
            ∧ (migrateInvoiceItem true (migrateInvoiceItem false item)).sgstRate
              = item.sgstRate))
    ∧ ((migrateSubItem false (migrateSubItem true subItem)).igstRate = subItem.igstRate
      ∧ (subItem.cgstRate = subItem.sgstRate →
          (migrateSubItem true (migrateSubItem false subItem)).cgstRate = subItem.cgstRate
            ∧ (migrateSubItem true (migrateSubItem false subItem)).sgstRate
              = subItem.sgstRate))
    ∧ ((migrateGroupItem false (migrateGroupItem true g)).igstRate = g.igstRate
      ∧ (g.cgstRate = g.sgstRate →
          (migrateGroupItem true (migrateGroupItem false g)).cgstRate = g.cgstRate
            ∧ (migrateGroupItem true (migrateGroupItem false g)).sgstRate = g.sgstRate)) := by
  refine ⟨⟨?_, fun h => ⟨?_, ?_⟩⟩, ⟨?_, fun h => ⟨?_, ?_⟩⟩, ⟨?_, fun h => ⟨?_, ?_⟩⟩⟩ <;>
    simp [migrateInvoiceItem, migrateSubItem, migrateGroupItem] <;>
      first
        | ring1
        | (rw [h]; ring1)

/-- Witness for C3 at a concrete input: the example item starts with
equal CGST and SGST rates, and the inter→intra round trip preserves
them. -/
theorem taxRateMigration_roundTrip_witness :
    itemEx.cgstRate = itemEx.sgstRate
      ∧ (migrateInvoiceItem true (migrateInvoiceItem false itemEx)).cgstRate
        = itemEx.cgstRate :=
  ⟨by decide, (((taxRateMigration_roundTrip itemEx subItemEx groupItemEx).1.2) (by decide)).1⟩

/-- C7: post-tax adjustments never influence the subtotal, taxable
amount, scaled tax totals, total tax or grand total, in either variant:
two runs differing only in the post-tax list agree on all of them. -/
theorem postTaxNoninterference (isIntra : Bool) (items : List InvoiceItem)
    (gItems : List GroupItem) (pre postA postB : List AdjustmentItem) :
    ((calculations isIntra items pre postA).subtotal
        = (calculations isIntra items pre postB).subtotal
      ∧ (calculations isIntra items pre postA).taxableAmount
        = (calculations isIntra items pre postB).taxableAmount
      ∧ (calculations isIntra items pre postA).finalTotalCgst
        = (calculations isIntra items pre postB).finalTotalCgst
      ∧ (calculations isIntra items pre postA).finalTotalSgst
        = (calculations isIntra items pre postB).finalTotalSgst
      ∧ (calculations isIntra items pre postA).finalTotalIgst
        = (calculations isIntra items pre postB).finalTotalIgst
      ∧ (calculations isIntra items pre postA).totalTax
        = (calculations isIntra items pre postB).totalTax
      ∧ (calculations isIntra items pre postA).grandTotal
        = (calculations isIntra items pre postB).grandTotal)
    ∧ ((gCalculations isIntra gItems pre postA).subtotal
        = (gCalculations isIntra gItems pre postB).subtotal
      ∧ (gCalculations isIntra gItems pre postA).taxableAmount
        = (gCalculations isIntra gItems pre postB).taxableAmount
      ∧ (gCalculations isIntra gItems pre postA).finalTotalCgst
        = (gCalculations isIntra gItems pre postB).finalTotalCgst
      ∧ (gCalculations isIntra gItems pre postA).finalTotalSgst
        = (gCalculations isIntra gItems pre postB).finalTotalSgst
      ∧ (gCalculations isIntra gItems pre postA).finalTotalIgst
        = (gCalculations isIntra gItems pre postB).finalTotalIgst
      ∧ (gCalculations isIntra gItems pre postA).totalTax
        = (gCalculations isIntra gItems pre postB).totalTax
      ∧ (gCalculations isIntra gItems pre postA).grandTotal
        = (gCalculations isIntra gItems pre postB).grandTotal) :=
  ⟨⟨rfl, rfl, rfl, rfl, rfl, rfl, rfl⟩, ⟨rfl, rfl, rfl, rfl, rfl, rfl, rfl⟩⟩

/-- C4: in the grouped variant, a line with a non-empty sub-item list is
valued purely from its sub-items — its displayed total and per-group tax
amounts are the sums of the sub-items' corresponding figures, and the
valuation result is unchanged under any change of the item's own
hsn/qty/unit/price/rate (indeed any non-sub-item) fields; a line with an
empty sub-item list is valued by the plain single-item path on its own
fields. -/
theorem groupValuation (isIntra : Bool) (item other : GroupItem) :
    (item.subItems ≠ [] →
      ((groupItemCalc isIntra item).totalAmount
          = (item.subItems.map (fun s => (subItemCalc isIntra s).totalAmount)).sum
        ∧ (groupItemCalc isIntra item).mainItemCgst
          = (item.subItems.map (fun s => (subItemCalc isIntra s).cgstAmount)).sum
        ∧ (groupItemCalc isIntra item).mainItemSgst
          = (item.subItems.map (fun s => (subItemCalc isIntra s).sgstAmount)).sum
        ∧ (groupItemCalc isIntra item).mainItemIgst
          = (item.subItems.map (fun s => (subItemCalc isIntra s).igstAmount)).sum
        ∧ (other.subItems = item.subItems →
            groupItemCalc isIntra other = groupItemCalc isIntra item)))
    ∧ (item.subItems = [] →
      ((groupItemCalc isIntra item).totalAmount
          = (itemCalc isIntra item.ownFields).totalAmount
        ∧ (groupItemCalc isIntra item).contribSubtotal
          = (itemCalc isIntra item.ownFields).itemAmount
        ∧ (groupItemCalc isIntra item).contribCgst
          = (itemCalc isIntra item.ownFields).cgstAmount
        ∧ (groupItemCalc isIntra item).contribSgst
          = (itemCalc isIntra item.ownFields).sgstAmount
        ∧ (groupItemCalc isIntra item).contribIgst
          = (itemCalc isIntra item.ownFields).igstAmount)) := by
  constructor
  · intro hne
    obtain ⟨a, l, h⟩ : ∃ a l, item.subItems = a :: l := by
      cases hs : item.subItems with
      | nil => exact absurd hs hne
      | cons a l => exact ⟨a, l, rfl⟩
    refine ⟨?_, ?_, ?_, ?_, ?_⟩
    · simp [groupItemCalc, h, Function.comp_def]
    · simp [groupItemCalc, h, Function.comp_def]
    · simp [groupItemCalc, h, Function.comp_def]
    · simp [groupItemCalc, h, Function.comp_def]
    · intro ho
      simp [groupItemCalc, h, ho]
  · intro he
    refine ⟨?_, ?_, ?_, ?_, ?_⟩ <;>
      simp [groupItemCalc, he, itemCalc, GroupItem.ownFields] <;>
        cases isIntra <;> (simp [mul_comm]; try ring1)

/-- Witness for C4 at concrete inputs: the example one-sub-item group's
total is the sum of its sub-item totals, and an empty group's total is
the single-item total of its own fields. -/
theorem groupValuation_witness :
    (groupItemCalc true groupItemEx).totalAmount
        = (groupItemEx.subItems.map (fun s => (subItemCalc true s).totalAmount)).sum
      ∧ (groupItemCalc true { groupItemEx with subItems := [] }).totalAmount
        = (itemCalc true ({ groupItemEx with subItems := [] } : GroupItem).ownFields).totalAmount :=
  ⟨((groupValuation true groupItemEx groupItemEx).1 (List.cons_ne_nil subItemEx [])).1,
   ((groupValuation true { groupItemEx with subItems := [] } groupItemEx).2 rfl).1⟩

/-- Boolean substring search agrees with the mathematical substring
decomposition: `listContains l tok` holds exactly when `tok` occurs
contiguously inside `l`. -/
theorem listContains_iff (l tok : List Char) :
    listContains l tok = true ↔ ∃ p q, l = p ++ tok ++ q := by
  induction l with
  | nil =>
    constructor
    · intro h
      rw [listContains] at h
      by_cases hp : tok.isPrefixOf ([] : List Char) = true
      · rw [List.isPrefixOf_iff_prefix] at hp
        obtain ⟨t, ht⟩ := hp
        exact ⟨[], t, ht.symm⟩
      · rw [if_neg hp] at h
        exact absurd h (by simp)
    · rintro ⟨p, q, hpq⟩
      have h3 : p = [] ∧ (tok = [] ∧ q = []) := by
        simpa using hpq.symm
      rw [h3.2.1, listContains]
      simp
  | cons a rest ih =>
    constructor
    · intro h
      rw [listContains] at h
      by_cases hp : tok.isPrefixOf (a :: rest) = true
      · rw [List.isPrefixOf_iff_prefix] at hp
        obtain ⟨t, ht⟩ := hp
        exact ⟨[], t, ht.symm⟩
      · rw [if_neg hp] at h
        have h2 : listContains rest tok = true := h
        obtain ⟨p, q, hl⟩ := ih.1 h2
        exact ⟨a :: p, q, by rw [hl]; simp⟩
    · rintro ⟨p, q, hpq⟩
      rw [listContains]
      by_cases hp : tok.isPrefixOf (a :: rest) = true
      · rw [if_pos hp]
      · rw [if_neg hp]
        cases p with
        | nil =>
          refine absurd (List.isPrefixOf_iff_prefix.2 ⟨q, ?_⟩) hp
          simpa using hpq.symm
        | cons b p2 =>
          show listContains rest tok = true
          have hpq2 : a :: rest = b :: (p2 ++ tok ++ q) := by simpa using hpq
          exact ih.2 ⟨p2, q, (List.cons.injEq .. ▸ hpq2).2⟩

/-- C5: the tax-mode resolver returns intra-state exactly when the
place-of-supply string contains the seller's token `"Delhi (07)"` as a
contiguous substring; every other string — the empty string, malformed
text, any other state token — resolves to inter-state. -/
theorem taxModeResolver (placeOfSupply : String) :
    (isIntraState placeOfSupply = true ↔
      ∃ p q, placeOfSupply.toList = p ++ delhiToken.toList ++ q)
      ∧ isIntraState "" = false
      ∧ isIntraState "Haryana (06)" = false
      ∧ isIntraState "Delhi (07)" = true :=
  ⟨listContains_iff _ _, by decide, by decide, by decide⟩

/-- Counterexample to C6 as stated: with items of amounts 5 and -5 the
raw subtotal is 0 and the scaling factor is 1, yet the scaled IGST total
is 9/10, not 0 — the raw aggregate tax totals were not 0. -/
theorem scalingDegenerate_counterexample :
    (calculations false [negItemA, negItemB] [] []).subtotal = 0
      ∧ (calculations false [negItemA, negItemB] [] []).taxScalingFactor = 1
      ∧ (calculations false [negItemA, negItemB] [] []).finalTotalIgst ≠ 0 := by
  refine ⟨?_, ?_, ?_⟩ <;>
    norm_num [calculations, pipeline, itemCalc, negItemA, negItemB,
      adjustmentTotal, adjStep]

/-- Elements of a non-negative list summing to zero are all zero. -/
theorem sum_zero_of_nonneg {l : List ℚ} (h0 : ∀ x ∈ l, 0 ≤ x) (hs : l.sum = 0) :
    ∀ x ∈ l, x = 0 := by
  induction l with
  | nil => simp
  | cons a t ih =>
    have hta : 0 ≤ t.sum :=
      List.sum_nonneg (fun x hx => h0 x (List.mem_cons_of_mem _ hx))
    have ha : 0 ≤ a := h0 a (List.mem_cons_self a t)
    have hsum : a + t.sum = 0 := by simpa using hs
    have ha0 : a = 0 := by linarith
    have ht0 : t.sum = 0 := by linarith
    intro x hx
    rcases List.mem_cons.1 hx with rfl | hx2
    · exact ha0
    · exact ih (fun y hy => h0 y (List.mem_cons_of_mem _ hy)) ht0 x hx2

/-- A flat item whose amount vanishes produces no tax. -/
theorem itemCalc_tax_zero (b : Bool) (it : InvoiceItem)
    (h : (itemCalc b it).itemAmount = 0) :
    (itemCalc b it).cgstAmount = 0 ∧ (itemCalc b it).sgstAmount = 0
      ∧ (itemCalc b it).igstAmount = 0 := by
  have h2 : it.qty.getD 1 * it.price = 0 := h
  cases b <;> simp [itemCalc, h2]

/-- A sub-item whose amount vanishes produces no tax. -/
theorem subItemCalc_tax_zero (b : Bool) (s : SubItem)
    (h : (subItemCalc b s).itemAmount = 0) :
    (subItemCalc b s).cgstAmount = 0 ∧ (subItemCalc b s).sgstAmount = 0
      ∧ (subItemCalc b s).igstAmount = 0 := by
  have h2 : s.qty.getD 1 * s.price = 0 := h
  cases b <;> simp [subItemCalc, h2]

/-- A grouped line's subtotal contribution is non-negative when its own
quantity/price and all its sub-items' quantities/prices are. -/
theorem groupContrib_nonneg (b : Bool) (g : GroupItem)
    (hq : 0 ≤ g.qty.getD 1) (hp : 0 ≤ g.price)
    (hsub : ∀ s ∈ g.subItems, 0 ≤ s.qty.getD 1 ∧ 0 ≤ s.price) :
    0 ≤ (groupItemCalc b g).contribSubtotal := by
  cases hs : g.subItems with
  | nil =>
    have he : (groupItemCalc b g).contribSubtotal = g.price * g.qty.getD 1 := by
      simp [groupItemCalc, hs]
    rw [he]
    exact mul_nonneg hp hq
  | cons a t =>
    have he : (groupItemCalc b g).contribSubtotal
        = ((a :: t).map (fun s => (subItemCalc b s).itemAmount)).sum := by
      simp [groupItemCalc, hs, Function.comp_def]
    rw [he]
    refine List.sum_nonneg ?_
    intro x hx
    obtain ⟨s, hsMem, rfl⟩ := List.mem_map.1 hx
    have hs2 : s ∈ g.subItems := by rw [hs]; exact hsMem
    exact mul_nonneg (hsub s hs2).1 (hsub s hs2).2

/-- A grouped line whose subtotal contribution vanishes (under the
non-negativity hypotheses) contributes no tax. -/
theorem groupContrib_tax_zero (b : Bool) (g : GroupItem)
    (hsub : ∀ s ∈ g.subItems, 0 ≤ s.qty.getD 1 ∧ 0 ≤ s.price)
    (h0 : (groupItemCalc b g).contribSubtotal = 0) :
    (groupItemCalc b g).contribCgst = 0 ∧ (groupItemCalc b g).contribSgst = 0
      ∧ (groupItemCalc b g).contribIgst = 0 := by
  cases hs : g.subItems with
  | nil =>
    have he : (groupItemCalc b g).contribSubtotal = g.price * g.qty.getD 1 := by
      simp [groupItemCalc, hs]
    rw [he] at h0
    have hsplit : g.price = 0 ∨ g.qty.getD 1 = 0 := mul_eq_zero.mp h0
    refine ⟨?_, ?_, ?_⟩ <;> cases b <;> simp [groupItemCalc, hs] <;>
      exact Or.inl hsplit
  | cons a t =>
    have he : (groupItemCalc b g).contribSubtotal
        = ((a :: t).map (fun s => (subItemCalc b s).itemAmount)).sum := by
      simp [groupItemCalc, hs, Function.comp_def]
    rw [he] at h0
    have hz : ∀ s ∈ g.subItems, (subItemCalc b s).itemAmount = 0 := by
      intro s hsMem
      have hs2 : s ∈ a :: t := by rw [← hs]; exact hsMem
      refine sum_zero_of_nonneg ?_ h0 _ (List.mem_map_of_mem _ hs2)
      intro x hx
      obtain ⟨s2, hs2Mem, rfl⟩ := List.mem_map.1 hx
      have hs3 : s2 ∈ g.subItems := by rw [hs]; exact hs2Mem
      exact mul_nonneg (hsub s2 hs3).1 (hsub s2 hs3).2
    have hec : (groupItemCalc b g).contribCgst
        = ((a :: t).map (fun s => (subItemCalc b s).cgstAmount)).sum := by
      simp [groupItemCalc, hs, Function.comp_def]
    have hes : (groupItemCalc b g).contribSgst
        = ((a :: t).map (fun s => (subItemCalc b s).sgstAmount)).sum := by
      simp [groupItemCalc, hs, Function.comp_def]
    have hei : (groupItemCalc b g).contribIgst
        = ((a :: t).map (fun s => (subItemCalc b s).igstAmount)).sum := by
      simp [groupItemCalc, hs, Function.comp_def]
    rw [hec, hes, hei]
    refine ⟨List.sum_eq_zero ?_, List.sum_eq_zero ?_, List.sum_eq_zero ?_⟩ <;>
      intro x hx <;>
        obtain ⟨s, hsMem, rfl⟩ := List.mem_map.1 hx <;>
          have hs2 : s ∈ g.subItems := by rw [hs]; exact hsMem
    · exact (subItemCalc_tax_zero b s (hz s hs2)).1
    · exact (subItemCalc_tax_zero b s (hz s hs2)).2.1
    · exact (subItemCalc_tax_zero b s (hz s hs2)).2.2

/-- C6 as amended: whenever the raw item subtotal is 0 the scaling factor
is set to 1 (the division is guarded, so the computation is total), in
either variant; and when additionally every quantity and price involved
is non-negative (the data model's stated shape), the raw and scaled tax
totals are all 0. -/
theorem scalingDegenerate (b : Bool) (items : List InvoiceItem)
    (gItems : List GroupItem) (pre post : List AdjustmentItem) :
    ((calculations b items pre post).subtotal = 0 →
        (calculations b items pre post).taxScalingFactor = 1)
    ∧ ((∀ it ∈ items, 0 ≤ it.qty.getD 1 ∧ 0 ≤ it.price) →
        (calculations b items pre post).subtotal = 0 →
          (calculations b items pre post).totalCgst = 0
        ∧ (calculations b items pre post).totalSgst = 0
        ∧ (calculations b items pre post).totalIgst = 0
        ∧ (calculations b items pre post).finalTotalCgst = 0
        ∧ (calculations b items pre post).finalTotalSgst = 0
        ∧ (calculations b items pre post).finalTotalIgst = 0)
    ∧ ((gCalculations b gItems pre post).subtotal = 0 →
        (gCalculations b gItems pre post).taxScalingFactor = 1)
    ∧ ((∀ g ∈ gItems, (0 ≤ g.qty.getD 1 ∧ 0 ≤ g.price)
          ∧ ∀ s ∈ g.subItems, 0 ≤ s.qty.getD 1 ∧ 0 ≤ s.price) →
        (gCalculations b gItems pre post).subtotal = 0 →
          (gCalculations b gItems pre post).totalCgst = 0
        ∧ (gCalculations b gItems pre post).totalSgst = 0
        ∧ (gCalculations b gItems pre post).totalIgst = 0
        ∧ (gCalculations b gItems pre post).finalTotalCgst = 0
        ∧ (gCalculations b gItems pre post).finalTotalSgst = 0
        ∧ (gCalculations b gItems pre post).finalTotalIgst = 0) := by
  refine ⟨?_, ?_, ?_, ?_⟩
  · intro h
    have hfac : (calculations b items pre post).taxScalingFactor
        = if (calculations b items pre post).subtotal ≠ 0 then
            (calculations b items pre post).taxableAmount
              / (calculations b items pre post).subtotal
          else 1 := rfl
    rw [hfac, if_neg (not_not_intro h)]
  · intro hnn hs
    have hs2 : ((items.map (itemCalc b)).map (fun c => c.itemAmount)).sum = 0 := hs
    have hz : ∀ it ∈ items, (itemCalc b it).itemAmount = 0 := by
      intro it hit
      refine sum_zero_of_nonneg
        (l := (items.map (itemCalc b)).map (fun c => c.itemAmount)) ?_ hs2 _
        (List.mem_map_of_mem _ (List.mem_map_of_mem _ hit))
      intro x hx
      obtain ⟨c, hc, rfl⟩ := List.mem_map.1 hx
      obtain ⟨it2, hit2, rfl⟩ := List.mem_map.1 hc
      exact mul_nonneg (hnn it2 hit2).1 (hnn it2 hit2).2
    have hcg : ((items.map (itemCalc b)).map (fun c => c.cgstAmount)).sum = 0 := by
      refine List.sum_eq_zero ?_
      intro x hx
      obtain ⟨c, hc, rfl⟩ := List.mem_map.1 hx
      obtain ⟨it2, hit2, rfl⟩ := List.mem_map.1 hc
      exact (itemCalc_tax_zero b it2 (hz it2 hit2)).1
    have hsg : ((items.map (itemCalc b)).map (fun c => c.sgstAmount)).sum = 0 := by
      refine List.sum_eq_zero ?_
      intro x hx
      obtain ⟨c, hc, rfl⟩ := List.mem_map.1 hx
      obtain ⟨it2, hit2, rfl⟩ := List.mem_map.1 hc
      exact (itemCalc_tax_zero b it2 (hz it2 hit2)).2.1
    have hig : ((items.map (itemCalc b)).map (fun c => c.igstAmount)).sum = 0 := by
      refine List.sum_eq_zero ?_
      intro x hx
      obtain ⟨c, hc, rfl⟩ := List.mem_map.1 hx
      obtain ⟨it2, hit2, rfl⟩ := List.mem_map.1 hc
      exact (itemCalc_tax_zero b it2 (hz it2 hit2)).2.2
    have h1 : (calculations b items pre post).totalCgst = 0 := hcg
    have h2 : (calculations b items pre post).totalSgst = 0 := hsg
    have h3 : (calculations b items pre post).totalIgst = 0 := hig
    have e1 : (calculations b items pre post).finalTotalCgst
        = (calculations b items pre post).totalCgst
          * (calculations b items pre post).taxScalingFactor := rfl
    have e2 : (calculations b items pre post).finalTotalSgst
        = (calculations b items pre post).totalSgst
          * (calculations b items pre post).taxScalingFactor := rfl
    have e3 : (calculations b items pre post).finalTotalIgst
        = (calculations b items pre post).totalIgst
          * (calculations b items pre post).taxScalingFactor := rfl
    exact ⟨h1, h2, h3, by rw [e1, h1, zero_mul], by rw [e2, h2, zero_mul],
      by rw [e3, h3, zero_mul]⟩
  · intro h
    have hfac : (gCalculations b gItems pre post).taxScalingFactor
        = if (gCalculations b gItems pre post).subtotal ≠ 0 then
            (gCalculations b gItems pre post).taxableAmount
              / (gCalculations b gItems pre post).subtotal
          else 1 := rfl
    rw [hfac, if_neg (not_not_intro h)]
  · intro hnn hs
    have hs2 : ((gItems.map (groupItemCalc b)).map (fun c => c.contribSubtotal)).sum = 0 := hs
    have hcz : ∀ g ∈ gItems, (groupItemCalc b g).contribSubtotal = 0 := by
      intro g hg
      refine sum_zero_of_nonneg
        (l := (gItems.map (groupItemCalc b)).map (fun c => c.contribSubtotal)) ?_ hs2 _
        (List.mem_map_of_mem _ (List.mem_map_of_mem _ hg))
      intro x hx
      obtain ⟨c, hc, rfl⟩ := List.mem_map.1 hx
      obtain ⟨g2, hg2, rfl⟩ := List.mem_map.1 hc
      exact groupContrib_nonneg b g2 (hnn g2 hg2).1.1 (hnn g2 hg2).1.2 (hnn g2 hg2).2
    have htax : ∀ g ∈ gItems, (groupItemCalc b g).contribCgst = 0
        ∧ (groupItemCalc b g).contribSgst = 0
        ∧ (groupItemCalc b g).contribIgst = 0 := fun g hg =>
      groupContrib_tax_zero b g (hnn g hg).2 (hcz g hg)
    have hcg : ((gItems.map (groupItemCalc b)).map (fun c => c.contribCgst)).sum = 0 := by
      refine List.sum_eq_zero ?_
      intro x hx
      obtain ⟨c, hc, rfl⟩ := List.mem_map.1 hx
      obtain ⟨g2, hg2, rfl⟩ := List.mem_map.1 hc
      exact (htax g2 hg2).1
    have hsg : ((gItems.map (groupItemCalc b)).map (fun c => c.contribSgst)).sum = 0 := by
      refine List.sum_eq_zero ?_
      intro x hx
      obtain ⟨c, hc, rfl⟩ := List.mem_map.1 hx
      obtain ⟨g2, hg2, rfl⟩ := List.mem_map.1 hc
      exact (htax g2 hg2).2.1
    have hig : ((gItems.map (groupItemCalc b)).map (fun c => c.contribIgst)).sum = 0 := by
      refine List.sum_eq_zero ?_
      intro x hx
      obtain ⟨c, hc, rfl⟩ := List.mem_map.1 hx
      obtain ⟨g2, hg2, rfl⟩ := List.mem_map.1 hc
      exact (htax g2 hg2).2.2
    have h1 : (gCalculations b gItems pre post).totalCgst = 0 := hcg
    have h2 : (gCalculations b gItems pre post).totalSgst = 0 := hsg
    have h3 : (gCalculations b gItems pre post).totalIgst = 0 := hig
    have e1 : (gCalculations b gItems pre post).finalTotalCgst
        = (gCalculations b gItems pre post).totalCgst
          * (gCalculations b gItems pre post).taxScalingFactor := rfl
    have e2 : (gCalculations b gItems pre post).finalTotalSgst
        = (gCalculations b gItems pre post).totalSgst
          * (gCalculations b gItems pre post).taxScalingFactor := rfl
    have e3 : (gCalculations b gItems pre post).finalTotalIgst
        = (gCalculations b gItems pre post).totalIgst
          * (gCalculations b gItems pre post).taxScalingFactor := rfl
    exact ⟨h1, h2, h3, by rw [e1, h1, zero_mul], by rw [e2, h2, zero_mul],
      by rw [e3, h3, zero_mul]⟩

/-- Witness for the amended C6 at a concrete input: a single zero-price
item gives subtotal 0, scaling factor 1, and scaled CGST 0. -/
theorem scalingDegenerate_witness :
    (calculations true [{ itemEx with price := 0 }] [] []).subtotal = 0
      ∧ (calculations true [{ itemEx with price := 0 }] [] []).taxScalingFactor = 1
      ∧ (calculations true [{ itemEx with price := 0 }] [] []).finalTotalCgst = 0 :=
  have hsub : (calculations true [{ itemEx with price := 0 }] [] []).subtotal = 0 := by
    norm_num [calculations, pipeline, itemCalc, itemEx]
  have hnn : ∀ it ∈ [({ itemEx with price := 0 } : InvoiceItem)],
      0 ≤ it.qty.getD 1 ∧ 0 ≤ it.price := by
    intro it hit
    rw [List.mem_singleton.mp hit]
    exact ⟨by norm_num [itemEx], le_refl 0⟩
  ⟨hsub,
   (scalingDegenerate true [{ itemEx with price := 0 }] [] [] []).1 hsub,
   ((scalingDegenerate true [{ itemEx with price := 0 }] [] [] []).2.1
      hnn hsub).2.2.2.1⟩

/-- C9 evaluated at the failing input: typing `-5` into the grouped
variant's post-tax amount field stores `amount = -5` — a negative stored
amount — because that editor passes the parsed value through unchanged,
while both flat-variant editors store `Math.abs` of the same input and
the creation defaults are 0. -/
theorem adjustmentAmountEditors :
    postTaxAmountEditGrouped [advEx] "p1" (-5) = [{ advEx with amount := -5 }]
      ∧ ({ advEx with amount := -5 } : AdjustmentItem).amount < 0
      ∧ preTaxAmountEditFlat [advEx] "p1" (-5) = [{ advEx with amount := 5 }]
      ∧ postTaxAmountEditFlat [advEx] "p1" (-5) = [{ advEx with amount := 5 }]
      ∧ (addPreTaxItemDefault "x").amount = 0
      ∧ (addPostTaxItemDefault "x").amount = 0 := by
  refine ⟨?_, ?_, ?_, ?_, ?_, ?_⟩ <;>
    norm_num [postTaxAmountEditGrouped, preTaxAmountEditFlat,
      postTaxAmountEditFlat, updateAdjustmentAmount, addPreTaxItemDefault,
      addPostTaxItemDefault, advEx, abs_of_nonpos]

/-- C10: every strictly negative input makes the chunk loop exit
immediately, so `numberToWords` returns the bare suffix `" Only"` — a
single leading space followed by `Only`, with no number words. -/
theorem numberToWords_negative (num : ℤ) (h : num < 0) :
    numberToWords num = " Only" := by
  rw [numberToWords, if_neg (by omega : ¬ num = 0), chunkLoop, chunkLoopFuel,
    if_neg (by omega : ¬ num > 0)]
  decide

/-- Witness for C10 at the concrete input -5. -/
theorem numberToWords_negative_witness :
    (-5 : ℤ) < 0 ∧ numberToWords (-5) = " Only" :=
  ⟨by decide, numberToWords_negative (-5) (by decide)⟩

theorem collapseWsAux_nonWs (flag : Bool) (x : Char) (l : List Char)
    (hx : isWsChar x = false) :
    collapseWsAux flag (x :: l) = x :: collapseWsAux false l := by
  cases flag <;> simp [collapseWsAux, hx]

theorem interOk_tail (c : Char) (rest : List Char)
    (h : interOk (c :: rest) = true) : interOk rest = true := by
  cases rest with
  | nil => rfl
  | cons d r2 =>
    rw [interOk] at h
    simp only [Bool.and_eq_true] at h
    exact h.2

theorem collapseWsAux_append (w s : List Char) (h : interOk w = true) :
    collapseWsAux false (w ++ s) = w ++ collapseWsAux false s := by
  induction w with
  | nil => simp
  | cons c rest ih =>
    have htail := interOk_tail c rest h
    rcases Bool.eq_false_or_eq_true (isWsChar c) with hc | hc
    · -- c is whitespace
      cases rest with
      | nil => simp [interOk, hc] at h
      | cons d r2 =>
        rw [interOk] at h
        simp only [Bool.and_eq_true, Bool.or_eq_true, Bool.not_eq_true',
          beq_iff_eq] at h
        have hcd : c = ' ' ∧ isWsChar d = false := by
          rcases h.1 with h2 | h2
          · rw [hc] at h2; cases h2
          · exact h2
        have step1 : collapseWsAux false ((c :: d :: r2) ++ s)
            = ' ' :: collapseWsAux true ((d :: r2) ++ s) := by
          simp [collapseWsAux, hc]
        have step2 : collapseWsAux true ((d :: r2) ++ s)
            = collapseWsAux false ((d :: r2) ++ s) := by
          rw [List.cons_append, collapseWsAux_nonWs true d _ hcd.2,
            collapseWsAux_nonWs false d _ hcd.2]
        rw [step1, step2, ih htail, hcd.1]
        simp
    · -- c is not whitespace
      rw [List.cons_append, collapseWsAux_nonWs false c _ hc, ih htail,
        List.cons_append]

/-- On an internally normalized list the whitespace collapse is the
identity. -/
theorem collapseWs_id (w : List Char) (h : interOk w = true) :
    collapseWs w = w := by
  have h2 := collapseWsAux_append w [] h
  simpa [collapseWs, collapseWsAux] using h2

theorem collapseWsAux_true_replicate (j : Nat) (T : List Char) :
    collapseWsAux true (List.replicate j ' ' ++ T) = collapseWsAux true T := by
  induction j with
  | zero => simp
  | succ k ih =>
    rw [List.replicate_succ, List.cons_append]
    have hsp : isWsChar ' ' = true := by decide
    simp only [collapseWsAux, hsp, if_true]
    exact ih

/-- Collapse of a non-empty space run followed by a list that is empty or
starts with non-whitespace. -/
theorem collapseWs_run (k : Nat) (hk : 0 < k) (T : List Char)
    (hT : T = [] ∨ ∃ x t2, T = x :: t2 ∧ isWsChar x = false) :
    collapseWsAux false (List.replicate k ' ' ++ T) = ' ' :: collapseWsAux false T := by
  obtain ⟨k2, rfl⟩ : ∃ k2, k = k2 + 1 := ⟨k - 1, by omega⟩
  rw [List.replicate_succ, List.cons_append]
  have hsp : isWsChar ' ' = true := by decide
  have step1 : collapseWsAux false (' ' :: (List.replicate k2 ' ' ++ T))
      = ' ' :: collapseWsAux true (List.replicate k2 ' ' ++ T) := by
    simp [collapseWsAux, hsp]
  rw [step1, collapseWsAux_true_replicate]
  rcases hT with rfl | ⟨x, t2, rfl, hx⟩
  · rfl
  · rw [collapseWsAux_nonWs true x t2 hx, collapseWsAux_nonWs false x t2 hx]

theorem rawConcatTrim_cons2 (w : List Char) (k : Nat) (p2 : List Char × Nat)
    (rest2 : List (List Char × Nat)) :
    rawConcatTrim ((w, k) :: p2 :: rest2)
      = w ++ (List.replicate k ' ' ++ rawConcatTrim (p2 :: rest2)) := rfl

theorem joinChars_cons2 (w w2 : List Char) (ws : List (List Char)) :
    joinChars (w :: w2 :: ws) = w ++ ' ' :: joinChars (w2 :: ws) := rfl

theorem wordOk_head (w : List Char) (h : wordOk w = true) :
    ∃ c t, w = c :: t ∧ isWsChar c = false ∧ interOk w = true := by
  cases w with
  | nil => simp [wordOk] at h
  | cons c t =>
    rw [wordOk] at h
    simp only [Bool.and_eq_true, Bool.not_eq_true'] at h
    exact ⟨c, t, rfl, h.1, h.2⟩

theorem interOk_getLast (w : List Char) (h : interOk w = true) :
    ∀ c, w.getLast? = some c → isWsChar c = false := by
  induction w with
  | nil => intro c hc; cases hc
  | cons a rest ih =>
    intro c hc
    cases rest with
    | nil =>
      have : a = c := by simpa using hc
      subst this
      simpa [interOk] using h
    | cons b r2 =>
      rw [List.getLast?_cons_cons] at hc
      exact ih (interOk_tail a _ h) c hc

theorem wordOk_reverse_head (w : List Char) (h : wordOk w = true) :
    ∃ x t, w.reverse = x :: t ∧ isWsChar x = false := by
  obtain ⟨c, t0, rfl, _hc, hint⟩ := wordOk_head w h
  have hrev : (c :: t0).reverse ≠ [] := by simp
  obtain ⟨x, t, hx⟩ := List.exists_cons_of_ne_nil hrev
  refine ⟨x, t, hx, ?_⟩
  have h2 : (c :: t0).reverse.head? = some x := by rw [hx]; rfl
  rw [List.head?_reverse] at h2
  exact interOk_getLast _ hint x h2

theorem dropWhile_ws_id (l : List Char)
    (h : l = [] ∨ ∃ x t, l = x :: t ∧ isWsChar x = false) :
    l.dropWhile isWsChar = l := by
  rcases h with rfl | ⟨x, t, rfl, hx⟩
  · rfl
  · simp [List.dropWhile_cons, hx]

theorem dropWhile_ws_replicate (k : Nat) (l : List Char) :
    (List.replicate k ' ' ++ l).dropWhile isWsChar = l.dropWhile isWsChar := by
  induction k with
  | zero => simp
  | succ j ih =>
    rw [List.replicate_succ, List.cons_append, List.dropWhile_cons]
    have hsp : isWsChar ' ' = true := by decide
    rw [hsp]
    simpa using ih

theorem dropWhile_append_of_ne {p : Char → Bool} (A B : List Char)
    (hA : A.dropWhile p ≠ []) :
    (A ++ B).dropWhile p = A.dropWhile p ++ B := by
  induction A with
  | nil => simp at hA
  | cons a t ih =>
    rw [List.cons_append, List.dropWhile_cons, List.dropWhile_cons]
    rcases Bool.eq_false_or_eq_true (p a) with ha | ha
    · rw [ha]
      simp only [if_true]
      refine ih ?_
      rw [List.dropWhile_cons, ha] at hA
      simpa using hA
    · simp [ha]

theorem rawConcat_head (ps : List (List Char × Nat))
    (h : ∀ p ∈ ps, wordOk p.1 = true ∧ 0 < p.2) :
    rawConcat ps = [] ∨ ∃ x t, rawConcat ps = x :: t ∧ isWsChar x = false := by
  cases ps with
  | nil => exact Or.inl rfl
  | cons p rest =>
    obtain ⟨w, k⟩ := p
    obtain ⟨c, t0, hw, hc, _⟩ := wordOk_head w (h (w, k) (List.mem_cons_self _ _)).1
    refine Or.inr ⟨c, t0 ++ (List.replicate k ' ' ++ rawConcat rest), ?_, hc⟩
    rw [rawConcat, hw, List.cons_append]

theorem rawConcatTrim_head (ps : List (List Char × Nat))
    (h : ∀ p ∈ ps, wordOk p.1 = true ∧ 0 < p.2) :
    rawConcatTrim ps = [] ∨ ∃ x t, rawConcatTrim ps = x :: t ∧ isWsChar x = false := by
  cases ps with
  | nil => exact Or.inl rfl
  | cons p rest =>
    obtain ⟨w, k⟩ := p
    obtain ⟨c, t0, hw, hc, _⟩ := wordOk_head w (h (w, k) (List.mem_cons_self _ _)).1
    cases rest with
    | nil => exact Or.inr ⟨c, t0, by rw [rawConcatTrim, hw], hc⟩
    | cons p2 rest2 =>
      refine Or.inr ⟨c, t0 ++ (List.replicate k ' ' ++ rawConcatTrim (p2 :: rest2)), ?_, hc⟩
      rw [rawConcatTrim_cons2, hw, List.cons_append]

theorem rawConcatTrim_ne_nil (ps : List (List Char × Nat)) (hne : ps ≠ [])
    (h : ∀ p ∈ ps, wordOk p.1 = true ∧ 0 < p.2) :
    rawConcatTrim ps ≠ [] := by
  rcases rawConcatTrim_head ps h with he | ⟨x, t, hx, _⟩
  · cases ps with
    | nil => exact absurd rfl hne
    | cons p rest =>
      obtain ⟨w, k⟩ := p
      obtain ⟨c, t0, hw, _, _⟩ := wordOk_head w (h (w, k) (List.mem_cons_self _ _)).1
      cases rest with
      | nil => rw [rawConcatTrim, hw] at he; cases he
      | cons p2 rest2 => rw [rawConcatTrim_cons2, hw, List.cons_append] at he; cases he
  · rw [hx]; simp

theorem rawConcat_reverse_dropWhile (ps : List (List Char × Nat))
    (h : ∀ p ∈ ps, wordOk p.1 = true ∧ 0 < p.2) :
    (rawConcat ps).reverse.dropWhile isWsChar = (rawConcatTrim ps).reverse := by
  induction ps with
  | nil => simp [rawConcat, rawConcatTrim]
  | cons p rest ih =>
    obtain ⟨w, k⟩ := p
    have hwk := h (w, k) (List.mem_cons_self _ _)
    have hrest : ∀ p ∈ rest, wordOk p.1 = true ∧ 0 < p.2 :=
      fun p hp => h p (List.mem_cons_of_mem _ hp)
    obtain ⟨x, t, hxr, hx⟩ := wordOk_reverse_head w hwk.1
    cases rest with
    | nil =>
      rw [rawConcat, rawConcatTrim]
      simp only [rawConcat, List.append_nil, List.reverse_append,
        List.reverse_replicate]
      rw [dropWhile_ws_replicate]
      exact dropWhile_ws_id _ (Or.inr ⟨x, t, hxr, hx⟩)
    | cons p2 rest2 =>
      rw [rawConcat, rawConcatTrim_cons2]
      rw [List.reverse_append, List.reverse_append, List.reverse_replicate]
      rw [List.append_assoc]
      have hne : (rawConcat (p2 :: rest2)).reverse.dropWhile isWsChar ≠ [] := by
        rw [ih hrest]
        simpa using rawConcatTrim_ne_nil (p2 :: rest2) (by simp) hrest
      rw [dropWhile_append_of_ne _ _ hne, ih hrest]
      rw [List.reverse_append, List.reverse_append, List.reverse_replicate,
        List.append_assoc]

/-- On a word/space-run interleaving, JavaScript `trim` removes exactly
the final space run. -/
theorem jsTrim_rawConcat (ps : List (List Char × Nat))
    (h : ∀ p ∈ ps, wordOk p.1 = true ∧ 0 < p.2) :
    jsTrim (rawConcat ps) = rawConcatTrim ps := by
  rw [jsTrim, dropWhile_ws_id _ (rawConcat_head ps h),
    rawConcat_reverse_dropWhile ps h, List.reverse_reverse]

/-- Collapsing a trimmed word/space-run interleaving joins the words with
single spaces. -/
theorem collapseWs_rawConcatTrim (ps : List (List Char × Nat))
    (h : ∀ p ∈ ps, wordOk p.1 = true ∧ 0 < p.2) :
    collapseWs (rawConcatTrim ps) = joinChars (ps.map Prod.fst) := by
  induction ps with
  | nil => rfl
  | cons p rest ih =>
    obtain ⟨w, k⟩ := p
    have hwk := h (w, k) (List.mem_cons_self _ _)
    have hrest : ∀ p ∈ rest, wordOk p.1 = true ∧ 0 < p.2 :=
      fun p hp => h p (List.mem_cons_of_mem _ hp)
    obtain ⟨c, t0, hw, _hc, hint⟩ := wordOk_head w hwk.1
    cases rest with
    | nil =>
      rw [rawConcatTrim]
      exact collapseWs_id w hint
    | cons p2 rest2 =>
      rw [rawConcatTrim_cons2, collapseWs, collapseWsAux_append _ _ hint,
        collapseWs_run k hwk.2 _ (rawConcatTrim_head (p2 :: rest2) hrest)]
      have ihT := ih hrest
      rw [collapseWs] at ihT
      rw [ihT]
      rfl

theorem chunkLoopFuel_zeroTemp (f i : Nat) (r : String) :
    chunkLoopFuel f ((0 : Nat) : Int) i r = r := by
  rw [chunkLoopFuel]
  simp

theorem chunkLoopFuel4_pos (m : Nat) (hm : 0 < m) (r : String) :
    chunkLoopFuel 4 (m : Int) 0 r
      = chunkLoopFuel 3 ((m / 1000 : Nat) : Int) 1
          ((if m % 1000 ≠ 0 then pieceStr (m % 1000) 0 else "") ++ r) := by
  have hpos : ((m : Int) > 0) := by exact_mod_cast hm
  have hmod : Int.emod (m : Int) 1000 = ((m % 1000 : Nat) : Int) := rfl
  have hdiv : Int.ediv (m : Int) 1000 = ((m / 1000 : Nat) : Int) := rfl
  rw [chunkLoopFuel, if_pos hpos]
  simp only [if_pos rfl, hmod, hdiv]
  by_cases hc : m % 1000 = 0
  · simp [hc, pieceStr, String.append_assoc]
  · have hpos2 : (0 : Int) < (m : Int) % 1000 := by omega
    have htn : ((m : Int) % 1000).toNat = m % 1000 := by omega
    simp [hc, pieceStr, String.append_assoc, htn, hpos2]

theorem chunkLoopFuel3_pos (m : Nat) (hm : 0 < m) (r : String) :
    chunkLoopFuel 3 (m : Int) 1 r
      = chunkLoopFuel 2 ((m / 100 : Nat) : Int) 2
          ((if m % 100 ≠ 0 then pieceStr (m % 100) 1 else "") ++ r) := by
  have hpos : ((m : Int) > 0) := by exact_mod_cast hm
  have hmod : Int.emod (m : Int) 100 = ((m % 100 : Nat) : Int) := rfl
  have hdiv : Int.ediv (m : Int) 100 = ((m / 100 : Nat) : Int) := rfl
  rw [chunkLoopFuel, if_pos hpos]
  simp only [hmod, hdiv]
  by_cases hc : m % 100 = 0
  · simp [hc, pieceStr, String.append_assoc]
  · have hpos2 : (0 : Int) < (m : Int) % 100 := by omega
    have htn : ((m : Int) % 100).toNat = m % 100 := by omega
    simp [hc, pieceStr, String.append_assoc, htn, hpos2]

theorem chunkLoopFuel2_pos (m : Nat) (hm : 0 < m) (r : String) :
    chunkLoopFuel 2 (m : Int) 2 r
      = chunkLoopFuel 1 ((m / 100 : Nat) : Int) 3
          ((if m % 100 ≠ 0 then pieceStr (m % 100) 2 else "") ++ r) := by
  have hpos : ((m : Int) > 0) := by exact_mod_cast hm
  have hmod : Int.emod (m : Int) 100 = ((m % 100 : Nat) : Int) := rfl
  have hdiv : Int.ediv (m : Int) 100 = ((m / 100 : Nat) : Int) := rfl
  rw [chunkLoopFuel, if_pos hpos]
  simp only [hmod, hdiv]
  by_cases hc : m % 100 = 0
  · simp [hc, pieceStr, String.append_assoc]
  · have hpos2 : (0 : Int) < (m : Int) % 100 := by omega
    have htn : ((m : Int) % 100).toNat = m % 100 := by omega
    simp [hc, pieceStr, String.append_assoc, htn, hpos2]

theorem chunkLoopFuel1_pos (m : Nat) (hm : 0 < m) (r : String) :
    chunkLoopFuel 1 (m : Int) 3 r
      = (if m % 100 ≠ 0 then pieceStr (m % 100) 3 else "") ++ r := by
  have hpos : ((m : Int) > 0) := by exact_mod_cast hm
  have hmod : Int.emod (m : Int) 100 = ((m % 100 : Nat) : Int) := rfl
  rw [chunkLoopFuel, if_pos hpos]
  simp only [hmod]
  by_cases hc : m % 100 = 0
  · simp [hc, pieceStr, String.append_assoc]
  · have hpos2 : (0 : Int) < (m : Int) % 100 := by omega
    have htn : ((m : Int) % 100).toNat = m % 100 := by omega
    simp [hc, pieceStr, String.append_assoc, htn, hpos2]

theorem chunkLoop_unroll (n : Nat) (h : 0 < n) :
    chunkLoop (n : Int) 0 "" = rawChunks n := by
  rw [chunkLoop, chunkLoopFuel4_pos n h]
  by_cases h1 : n / 1000 = 0
  · rw [h1, chunkLoopFuel_zeroTemp, rawChunks, h1]
    simp
  · rw [chunkLoopFuel3_pos _ (Nat.pos_of_ne_zero h1)]
    by_cases h2 : n / 1000 / 100 = 0
    · rw [h2, chunkLoopFuel_zeroTemp, rawChunks, h2]
      simp
    · rw [chunkLoopFuel2_pos _ (Nat.pos_of_ne_zero h2)]
      by_cases h3 : n / 1000 / 100 / 100 = 0
      · rw [h3, chunkLoopFuel_zeroTemp, rawChunks, h3]
        simp
      · rw [chunkLoopFuel1_pos _ (Nat.pos_of_ne_zero h3), rawChunks]

set_option maxRecDepth 10000 in
/-- Every chunk rendering (chunks are non-zero and below 1000) is a
normalized word: non-empty, no leading/trailing whitespace, single
plain spaces inside. -/
theorem toWords_wordOk :
    ∀ c : Nat, c < 1000 → c ≠ 0 → wordOk (toWords c).toList = true := by
  decide

theorem mem_if_pair {α : Type} {P : Prop} [Decidable P] {x y p : α}
    (hp : p ∈ (if P then [x, y] else ([] : List α))) : P ∧ (p = x ∨ p = y) := by
  by_cases h : P
  · rw [if_pos h] at hp
    simp at hp
    exact ⟨h, hp⟩
  · rw [if_neg h] at hp
    simp at hp

theorem mem_if_single {α : Type} {P : Prop} [Decidable P] {x p : α}
    (hp : p ∈ (if P then [x] else ([] : List α))) : P ∧ p = x := by
  by_cases h : P
  · rw [if_pos h] at hp
    simp at hp
    exact ⟨h, hp⟩
  · rw [if_neg h] at hp
    simp at hp

theorem chunkPairs_ok (n : Nat) :
    ∀ p ∈ chunkPairs n, wordOk p.1 = true ∧ 0 < p.2 := by
  have hb : ∀ m : Nat, m % 100 < 1000 :=
    fun m => lt_trans (Nat.mod_lt _ (by norm_num)) (by norm_num)
  have hb0 : n % 1000 < 1000 := Nat.mod_lt _ (by norm_num)
  intro p hp
  rw [chunkPairs] at hp
  rcases List.mem_append.mp hp with hp | hp
  · obtain ⟨hP, rfl | rfl⟩ := mem_if_pair hp
    · exact ⟨toWords_wordOk _ (hb _) hP, by norm_num⟩
    · exact ⟨by decide, by norm_num⟩
  rcases List.mem_append.mp hp with hp | hp
  · obtain ⟨hP, rfl | rfl⟩ := mem_if_pair hp
    · exact ⟨toWords_wordOk _ (hb _) hP, by norm_num⟩
    · exact ⟨by decide, by norm_num⟩
  rcases List.mem_append.mp hp with hp | hp
  · obtain ⟨hP, rfl | rfl⟩ := mem_if_pair hp
    · exact ⟨toWords_wordOk _ (hb _) hP, by norm_num⟩
    · exact ⟨by decide, by norm_num⟩
  · obtain ⟨hP, rfl⟩ := mem_if_single hp
    exact ⟨toWords_wordOk _ hb0 hP, by norm_num⟩

theorem rawConcat_append (l1 l2 : List (List Char × Nat)) :
    rawConcat (l1 ++ l2) = rawConcat l1 ++ rawConcat l2 := by
  induction l1 with
  | nil => simp [rawConcat]
  | cons p rest ih =>
    obtain ⟨w, k⟩ := p
    rw [List.cons_append, rawConcat, rawConcat, ih]
    simp [List.append_assoc]

theorem rawChunks_toList (n : Nat) :
    (rawChunks n).toList = rawConcat (chunkPairs n) := by
  have hpiece3 : ∀ c : Nat, (pieceStr c 3).data
      = rawConcat [((toWords c).toList, 1), ("Crore".toList, 1)] := by
    intro c
    simp [pieceStr, rawConcat, String.toList, String.data_append, scaleWords]
  have hpiece2 : ∀ c : Nat, (pieceStr c 2).data
      = rawConcat [((toWords c).toList, 1), ("Lakh".toList, 1)] := by
    intro c
    simp [pieceStr, rawConcat, String.toList, String.data_append, scaleWords]
  have hpiece1 : ∀ c : Nat, (pieceStr c 1).data
      = rawConcat [((toWords c).toList, 1), ("Thousand".toList, 1)] := by
    intro c
    simp [pieceStr, rawConcat, String.toList, String.data_append, scaleWords]
  have hpiece0 : ∀ c : Nat, (pieceStr c 0).data
      = rawConcat [((toWords c).toList, 2)] := by
    intro c
    simp [pieceStr, rawConcat, String.toList, String.data_append, scaleWords,
      List.replicate]
  rw [rawChunks, chunkPairs]
  rw [rawConcat_append, rawConcat_append, rawConcat_append]
  by_cases h3 : n / 1000 / 100 / 100 % 100 = 0 <;>
    by_cases h2 : n / 1000 / 100 % 100 = 0 <;>
      by_cases h1 : n / 1000 % 100 = 0 <;>
        by_cases h0 : n % 1000 = 0 <;>
          simp [h3, h2, h1, h0, hpiece3, hpiece2, hpiece1, hpiece0,
            String.toList, String.data_append, rawConcat]

theorem space_data : (" " : String).data = [' '] := rfl

theorem joinWords_cons2 (w w2 : String) (ws : List String) :
    joinWords (w :: w2 :: ws) = w ++ " " ++ joinWords (w2 :: ws) := rfl

theorem joinWords_toList (ws : List String) :
    (joinWords ws).toList = joinChars (ws.map String.toList) := by
  induction ws with
  | nil => rfl
  | cons w rest ih =>
    cases rest with
    | nil => rfl
    | cons w2 rest2 =>
      rw [joinWords_cons2, List.map_cons, List.map_cons, joinChars_cons2]
      show ((w ++ " ") ++ joinWords (w2 :: rest2)).data = _
      rw [String.data_append, String.data_append, space_data]
      rw [List.append_assoc, List.singleton_append]
      rw [show (joinWords (w2 :: rest2)).data
        = (joinWords (w2 :: rest2)).toList from rfl, ih]
      rfl

theorem joinChars_flatten (w s : List Char) (rest : List (List Char)) :
    joinChars ((w ++ ' ' :: s) :: rest) = joinChars (w :: s :: rest) := by
  cases rest with
  | nil => rfl
  | cons r rs =>
    rw [joinChars_cons2, joinChars_cons2, joinChars_cons2]
    simp [List.append_assoc]

theorem mk_toList (s : String) : String.mk s.toList = s := rfl

theorem mk_joinChars (n : Nat) :
    String.mk (joinChars ((chunkPairs n).map Prod.fst))
      = joinWords (([(n / 1000 / 100 / 100 % 100, "Crore"),
          (n / 1000 / 100 % 100, "Lakh"),
          (n / 1000 % 100, "Thousand"),
          (n % 1000, "")].filter (fun p => p.1 != 0)).map
            (fun p => renderChunk p.1 p.2)) := by
  rw [← mk_toList (joinWords _)]
  rw [joinWords_toList]
  by_cases h3 : n / 1000 / 100 / 100 % 100 = 0 <;>
    by_cases h2 : n / 1000 / 100 % 100 = 0 <;>
      by_cases h1 : n / 1000 % 100 = 0 <;>
        by_cases h0 : n % 1000 = 0 <;>
          simp [chunkPairs, renderChunk, h3, h2, h1, h0, joinChars_flatten,
            String.toList, String.data_append, joinChars, bne_iff_ne,
            List.append_assoc]

/-- C8: numberToWords maps 0 to "Zero Only"; every positive integer is
split into chunks (the least-significant modulo 1000, every subsequent
chunk modulo 100), each non-zero chunk is rendered by hundreds/tens/ones
expansion suffixed with its scale word, chunks are concatenated
most-significant-first, " Only" is appended, and chunks beyond the Crore
position are silently dropped; with the four concrete examples. -/
theorem numberToWords_spec :
    numberToWords 0 = "Zero Only"
      ∧ (∀ n : Nat, 0 < n → numberToWords (n : Int) = wordsIndianSpec n)
      ∧ numberToWords 100 = "One Hundred Only"
      ∧ numberToWords 1500 = "One Thousand Five Hundred Only"
      ∧ numberToWords 100000 = "One Lakh Only"
      ∧ numberToWords 1234567
        = "Twelve Lakh Thirty Four Thousand Five Hundred Sixty Seven Only" := by
  refine ⟨by decide, ?_, by decide, by decide, by decide, by decide⟩
  intro n hn
  have hne : ¬ ((n : Int) = 0) := by exact_mod_cast hn.ne'
  rw [numberToWords, if_neg hne, chunkLoop_unroll n hn, jsTrimCollapseStr]
  rw [show (rawChunks n).toList = rawConcat (chunkPairs n) from rawChunks_toList n]
  rw [jsTrim_rawConcat _ (chunkPairs_ok n),
    collapseWs_rawConcatTrim _ (chunkPairs_ok n), mk_joinChars n]
  rfl

/-- Witness for C8 at the concrete input 1500: the hypothesis holds, the
specification-side conversion evaluates to the expected words, and the
theorem's general part applies. -/
theorem numberToWords_spec_witness :
    0 < 1500 ∧ wordsIndianSpec 1500 = "One Thousand Five Hundred Only"
      ∧ numberToWords ((1500 : Nat) : Int) = wordsIndianSpec 1500 :=
  ⟨by decide, by decide, numberToWords_spec.2.1 1500 (by decide)⟩

end InvoiceCreator
